import Mathlib

/-!
Verification of the list-management and filtering logic of
`src/web/src/views/TicketsView.vue` (the "TicketListScreen" component).

The component is embedded shallowly:
* JavaScript values that the component passes around dynamically are
  modelled by `JSValue`; a JS object is an association list `JSObj`,
  property access is `getField` (absent keys read as `undefined`).
* A fallible JS computation (one that can throw a `TypeError`, e.g.
  calling `.toLowerCase()` on a non-string) is modelled with `Option`:
  `none` is an uncaught exception.
* The component's reactive refs (`tickets`, `ticket`, the two dialog
  flags) form `TicketsState`; handlers are state transformers that also
  emit an ordered trace of `Effect`s (notifications, remote calls,
  reload requests), so that temporal claims about side effects can be
  stated as facts about the trace.
-/

/-- A JavaScript runtime value, restricted to the shapes this component
manipulates: strings, numbers, `undefined`, `null` and arrays. -/
inductive JSValue where
  | str : String → JSValue
  | num : Int → JSValue
  | undef : JSValue
  | jsNull : JSValue
  | arr : List JSValue → JSValue
deriving Repr

/-- A JavaScript object, as an association list of named fields. -/
abbrev JSObj : Type := List (String × JSValue)

/-- JS property read `o[k]`: the first binding of `k`, or `undefined`
when the key is absent. -/
def getField (o : JSObj) (k : String) : JSValue :=
  match o with
  | [] => JSValue.undef
  | (k2, v) :: rest => if k2 = k then v else getField rest k

/-- Whether a JS value is a string (only strings survive a
`.toLowerCase()` call; every other value makes it throw). -/
def isStr (v : JSValue) : Bool :=
  match v with
  | JSValue.str _ => true
  | _ => false

/-- `String.prototype.toLowerCase`, modelled characterwise. -/
def jsToLowerCase (s : String) : String :=
  ⟨s.data.map Char.toLower⟩

/-- `pat` occurs at the head of `s` (character lists). -/
def headMatches : List Char → List Char → Bool
  | [], _ => true
  | _ :: _, [] => false
  | a :: pa, b :: sb => a == b && headMatches pa sb

/-- `pat` occurs somewhere in `s` (character lists); the empty pattern
always occurs, as with JS `String.prototype.includes`. -/
def occursIn (pat : List Char) : List Char → Bool
  | [] => pat.isEmpty
  | c :: rest => headMatches pat (c :: rest) || occursIn pat rest

/-- `String.prototype.includes`: substring containment. -/
def jsIncludes (s pat : String) : Bool :=
  occursIn pat.data s.data

/-- The loop body of `filterData` (source lines 206-213), already given
the lowercased search terms `t`.  Each row's `subject` is lowercased and
tested; thanks to `||` short-circuit, `description` is only read when
the subject test fails.  A `.toLowerCase()` call on a non-string value
throws, which aborts the whole call (`none`). -/
def filterLoop (t : String) : List JSObj → Option (List JSObj)
  | [] => some []
  | r :: rest =>
    match getField r "subject" with
    | JSValue.str s =>
      if jsIncludes (jsToLowerCase s) t then
        (filterLoop t rest).map (fun l => r :: l)
      else
        match getField r "description" with
        | JSValue.str d =>
          if jsIncludes (jsToLowerCase d) t then
            (filterLoop t rest).map (fun l => r :: l)
          else
            filterLoop t rest
        | _ => none
    | _ => none

/-- `filterData(rows, terms)` (source lines 203-215): lowercases the
terms once, then scans the rows in order, keeping each row whose
lowercased `subject` or `description` contains the terms. -/
def filterData (rows : List JSObj) (terms : String) : Option (List JSObj) :=
  filterLoop (jsToLowerCase terms) rows

/-- The match predicate `filterData` implements, on rows whose `subject`
and `description` are strings: lowercased subject OR lowercased
description contains the (lowercased) terms `t`. -/
def rowMatches (r : JSObj) (t : String) : Bool :=
  (match getField r "subject" with
   | JSValue.str s => jsIncludes (jsToLowerCase s) t
   | _ => false) ||
  (match getField r "description" with
   | JSValue.str d => jsIncludes (jsToLowerCase d) t
   | _ => false)

/-- A row is well-formed for the filter when both searchable fields are
strings. -/
def rowWellFormed (r : JSObj) : Bool :=
  isStr (getField r "subject") && isStr (getField r "description")

/-- Modelled from the spec: Quasar's `date.formatDate(val, mask)` is an
external collaborator (not part of this repository slice).  The spec
describes it only as normalizing a timestamp "into a fixed textual
format (`YYYY-MM-DDTHH:mm:ssZ`)", and its worked example maps the
already-normalized text `2023-01-01T00:00:00Z` to itself, so a string
timestamp passes through as that normalized text; Quasar yields
`undefined` for an absent (`undefined`) input value. -/
def formatDate (v : JSValue) (mask : String) : JSValue :=
  match v, mask with
  | JSValue.str s, _ => JSValue.str s
  | _, _ => JSValue.undef

/-- The date mask used throughout the component. -/
def dateMask : String := "YYYY-MM-DDTHH:mm:ssZ"

/-- The record-to-row mapping of `getTickets` (source lines 110-131):
field-by-field projection of a raw backend ticket into a display row,
with `#` set from the running counter, `description` read from
`description_text`, and the two dates formatted.  `updateTicketList`
(source lines 223-234) applies the identical mapping with the counter
fixed at the current list length plus one. -/
def mapRawTicket (counter : Int) (d : JSObj) : JSObj :=
  [("#", JSValue.num counter),
   ("id", getField d "id"),
   ("subject", getField d "subject"),
   ("description", getField d "description_text"),
   ("status", getField d "status"),
   ("created", formatDate (getField d "created_at") dateMask),
   ("updated", formatDate (getField d "updated_at") dateMask),
   ("comments", getField d "comments")]

/-- The `var counter = 1; res.data.data.map(...)` loop of `getTickets`:
maps each raw record with the running counter, post-incrementing it. -/
def mapTickets (counter : Int) : List JSObj → List JSObj
  | [] => []
  | d :: rest => mapRawTicket counter d :: mapTickets (counter + 1) rest

/-- The full row list `getTickets` installs for a backend response:
records mapped in fetch order with counter starting at 1. -/
def getTicketsRows (raw : List JSObj) : List JSObj :=
  mapTickets 1 raw

/-- The component's reactive state: the row list `tickets`, the
edit-form record `ticket`, and the two dialog-visibility flags. -/
structure TicketsState where
  tickets : List JSObj
  ticket : JSObj
  showaddTicketDialog : Bool
  showUpdateTicketDialog : Bool
deriving Repr

/-- An observable side effect of a handler, in emission order. -/
inductive Effect where
  | notifyLoading : Effect
  | dismissLoading : Effect
  | notifySuccess (msg : String) : Effect
  | remoteListCall (offset limit : Int) (sortField : String)
      (descending : Bool) (search : String) : Effect
  | confirmPrompt (id : JSValue) : Effect
  | remoteDelete (id : JSValue) : Effect
  | loadTickets : Effect
deriving Repr

/-- Recognizer for the loading-notification dismissal effect. -/
def isDismissLoading (e : Effect) : Bool :=
  match e with
  | Effect.dismissLoading => true
  | _ => false

/-- Recognizer for the remote `list` call effect. -/
def isRemoteListCall (e : Effect) : Bool :=
  match e with
  | Effect.remoteListCall _ _ _ _ _ => true
  | _ => false

/-- Recognizer for the remote `delete` call effect. -/
def isRemoteDelete (e : Effect) : Bool :=
  match e with
  | Effect.remoteDelete _ => true
  | _ => false

/-- Recognizer for a triggered full Loader reload (`getTickets()`). -/
def isLoadTickets (e : Effect) : Bool :=
  match e with
  | Effect.loadTickets => true
  | _ => false

/-- `getTickets` (source lines 103-135): shows the loading
notification, issues `ticketsService.list(0, 100000, "subject", false,
"")`, and — only when that promise resolves with a response — replaces
`tickets.value` with the mapped rows and dismisses the notification.
`result` is the outcome of the remote call: `some raw` a resolution
carrying `res.data.data = raw`, `none` a rejection; the `.then` chain
has no rejection handler, so on `none` nothing further runs. -/
def getTickets (st : TicketsState) (result : Option (List JSObj)) :
    TicketsState × List Effect :=
  match result with
  | some raw =>
    ({ st with tickets := getTicketsRows raw },
     [Effect.notifyLoading, Effect.remoteListCall 0 100000 "subject" false "",
      Effect.dismissLoading])
  | none =>
    (st,
     [Effect.notifyLoading, Effect.remoteListCall 0 100000 "subject" false ""])

/-- `editTicket(event, props)` (source lines 145-167): fills the
edit-form record `ticket` from the clicked row `props` — note the
source reads `props.createdAt` / `props.updatedAt` for the dates — and
opens the update dialog. -/
def editTicket (st : TicketsState) (props : JSObj) : TicketsState :=
  { st with
    ticket :=
      [("id", getField props "id"),
       ("subject", getField props "subject"),
       ("description", getField props "description"),
       ("status", getField props "status"),
       ("created", formatDate (getField props "createdAt") dateMask),
       ("updated", formatDate (getField props "updatedAt") dateMask),
       ("comments", getField props "comments")],
    showUpdateTicketDialog := true }

/-- `deleteTicket(props)` (source lines 168-183): opens a confirmation
dialog quoting `props.row.id`; the `onOk` continuation calls
`ticketsService.delete(props.row.id)` and, when that promise resolves,
`getTickets()`.  `confirmed` is the dialog outcome; `deleteResolves`
whether the remote delete promise resolved (its rejection is not
handled).  The state is untouched by the handler itself. -/
def deleteTicket (st : TicketsState) (row : JSObj)
    (confirmed deleteResolves : Bool) : TicketsState × List Effect :=
  (st,
   Effect.confirmPrompt (getField row "id") ::
     (if confirmed then
        Effect.remoteDelete (getField row "id") ::
          (if deleteResolves then [Effect.loadTickets] else [])
      else []))

/-- `ticketUpdated()` (source lines 195-198), the edit-panel "updated"
handler: closes the update dialog and calls `getTickets()`. -/
def ticketUpdated (st : TicketsState) : TicketsState × List Effect :=
  ({ st with showUpdateTicketDialog := false }, [Effect.loadTickets])

/-- `updateTicketList(data)` (source lines 219-242), the create-panel
"updated" handler: closes the add dialog, maps the returned record
`data.data = rec` with `#` set to `this.tickets.length + 1`, appends it
to `tickets`, and emits a success notification. -/
def updateTicketList (st : TicketsState) (rec : JSObj) :
    TicketsState × List Effect :=
  ({ st with
     showaddTicketDialog := false,
     tickets := st.tickets ++ [mapRawTicket (st.tickets.length + 1) rec] },
   [Effect.notifySuccess "Ticket added successfully."])

/-- The spec's worked-example backend record. -/
def exRawTicket : JSObj :=
  [("id", JSValue.str "t1"),
   ("subject", JSValue.str "Login issue"),
   ("description_text", JSValue.str "Cannot log in"),
   ("status", JSValue.str "open"),
   ("created_at", JSValue.str "2023-01-01T00:00:00Z"),
   ("updated_at", JSValue.str "2023-01-01T00:00:00Z"),
   ("comments", JSValue.arr [])]

/-- The spec's worked-example mapped row. -/
def exMappedRow : JSObj :=
  [("#", JSValue.num 1),
   ("id", JSValue.str "t1"),
   ("subject", JSValue.str "Login issue"),
   ("description", JSValue.str "Cannot log in"),
   ("status", JSValue.str "open"),
   ("created", JSValue.str "2023-01-01T00:00:00Z"),
   ("updated", JSValue.str "2023-01-01T00:00:00Z"),
   ("comments", JSValue.arr [])]

/-- A small well-formed row whose subject matches queries `foo`/`FOO`. -/
def exRow1 : JSObj :=
  [("subject", JSValue.str "Foo"), ("description", JSValue.str "bar")]

/-- A small well-formed row matching neither field for query `foo`. -/
def exRow2 : JSObj :=
  [("subject", JSValue.str "baz"), ("description", JSValue.str "qux")]

/-- The component state right after setup, before any load completes. -/
def initialState : TicketsState :=
  { tickets := [], ticket := [],
    showaddTicketDialog := false, showUpdateTicketDialog := false }

/-- The empty pattern occurs in every string, as with JS `includes`. -/
theorem occursIn_nil (l : List Char) : occursIn [] l = true := by
  cases l <;> simp [occursIn, headMatches]

/-- On rows whose searchable fields are all strings, the filter loop
never throws and computes exactly the `rowMatches` filter. -/
theorem filterLoop_wellFormed_eq (t : String) :
    ∀ rows : List JSObj, (∀ r ∈ rows, rowWellFormed r = true) →
      filterLoop t rows = some (rows.filter (fun r => rowMatches r t)) := by
  intro rows
  induction rows with
  | nil => intro _; rfl
  | cons r rest ih =>
    intro h
    have hr : rowWellFormed r = true := h r (List.mem_cons_self r rest)
    have hrest : ∀ x ∈ rest, rowWellFormed x = true :=
      fun x hx => h x (List.mem_cons_of_mem r hx)
    unfold rowWellFormed at hr
    cases hs : getField r "subject" with
    | str s =>
      cases hd : getField r "description" with
      | str d =>
        by_cases hm : jsIncludes (jsToLowerCase s) t = true
        · simp [filterLoop, List.filter_cons, rowMatches, hs, hd, hm, ih hrest]
        · by_cases hm2 : jsIncludes (jsToLowerCase d) t = true
          · simp [filterLoop, List.filter_cons, rowMatches, hs, hd, hm, hm2,
              ih hrest]
          · simp [filterLoop, List.filter_cons, rowMatches, hs, hd, hm, hm2,
              ih hrest]
      | undef => rw [hs, hd] at hr; simp [isStr] at hr
      | jsNull => rw [hs, hd] at hr; simp [isStr] at hr
      | num n => rw [hs, hd] at hr; simp [isStr] at hr
      | arr l => rw [hs, hd] at hr; simp [isStr] at hr
    | undef => rw [hs] at hr; simp [isStr] at hr
    | jsNull => rw [hs] at hr; simp [isStr] at hr
    | num n => rw [hs] at hr; simp [isStr] at hr
    | arr l => rw [hs] at hr; simp [isStr] at hr

/-- Whatever the rows, a successful filter pass yields a sublist (a
subsequence in the original relative order). -/
theorem filterLoop_sublist (t : String) :
    ∀ rows out : List JSObj, filterLoop t rows = some out →
      List.Sublist out rows := by
  intro rows
  induction rows with
  | nil =>
    intro out h
    simp only [filterLoop, Option.some.injEq] at h
    rw [← h]
  | cons r rest ih =>
    intro out h
    cases hs : getField r "subject" with
    | str s =>
      simp only [filterLoop, hs] at h
      by_cases hm : jsIncludes (jsToLowerCase s) t = true
      · rw [if_pos hm] at h
        rcases Option.map_eq_some'.mp h with ⟨l, hl, hout⟩
        rw [← hout]
        exact List.Sublist.cons₂ r (ih l hl)
      · rw [if_neg hm] at h
        cases hd : getField r "description" with
        | str d =>
          simp only [hd] at h
          by_cases hm2 : jsIncludes (jsToLowerCase d) t = true
          · rw [if_pos hm2] at h
            rcases Option.map_eq_some'.mp h with ⟨l, hl, hout⟩
            rw [← hout]
            exact List.Sublist.cons₂ r (ih l hl)
          · rw [if_neg hm2] at h
            exact List.Sublist.cons r (ih out h)
        | undef => simp only [hd] at h; exact Option.noConfusion h
        | jsNull => simp only [hd] at h; exact Option.noConfusion h
        | num n => simp only [hd] at h; exact Option.noConfusion h
        | arr l => simp only [hd] at h; exact Option.noConfusion h
    | undef => simp only [filterLoop, hs] at h; exact Option.noConfusion h
    | jsNull => simp only [filterLoop, hs] at h; exact Option.noConfusion h
    | num n => simp only [filterLoop, hs] at h; exact Option.noConfusion h
    | arr l => simp only [filterLoop, hs] at h; exact Option.noConfusion h

/-- A row the filter loop can process without throwing, for lowercased
terms `t`: its `subject` is a string, and whenever that subject does not
already match (forcing the `||` to evaluate its right operand), its
`description` is a string too. -/
def rowFilterSafe (r : JSObj) (t : String) : Bool :=
  match getField r "subject" with
  | JSValue.str s =>
    jsIncludes (jsToLowerCase s) t || isStr (getField r "description")
  | _ => false

/-- The filter loop returns (rather than throws) exactly when every row
is safe for the lowercased terms. -/
theorem filterLoop_isSome_iff_all_safe (t : String) :
    ∀ rows : List JSObj,
      (filterLoop t rows).isSome = rows.all (fun r => rowFilterSafe r t) := by
  intro rows
  induction rows with
  | nil => rfl
  | cons r rest ih =>
    cases hs : getField r "subject" with
    | str s =>
      by_cases hm : jsIncludes (jsToLowerCase s) t = true
      · simp [filterLoop, rowFilterSafe, hs, hm, ih]
      · cases hd : getField r "description" with
        | str d =>
          by_cases hm2 : jsIncludes (jsToLowerCase d) t = true
          · simp [filterLoop, rowFilterSafe, isStr, hs, hd, hm, hm2, ih]
          · simp [filterLoop, rowFilterSafe, isStr, hs, hd, hm, hm2, ih]
        | undef => simp [filterLoop, rowFilterSafe, isStr, hs, hd, hm]
        | jsNull => simp [filterLoop, rowFilterSafe, isStr, hs, hd, hm]
        | num n => simp [filterLoop, rowFilterSafe, isStr, hs, hd, hm]
        | arr l => simp [filterLoop, rowFilterSafe, isStr, hs, hd, hm]
    | undef => simp [filterLoop, rowFilterSafe, hs]
    | jsNull => simp [filterLoop, rowFilterSafe, hs]
    | num n => simp [filterLoop, rowFilterSafe, hs]
    | arr l => simp [filterLoop, rowFilterSafe, hs]

/-- `mapTickets` keeps the length of the record list. -/
theorem mapTickets_length (raw : List JSObj) :
    ∀ c : Int, (mapTickets c raw).length = raw.length := by
  induction raw with
  | nil => intro c; rfl
  | cons d rest ih => intro c; simp [mapTickets, ih]

/-- Indexing into `mapTickets`: position `i` holds the `i`-th record
mapped with counter `c + i`. -/
theorem mapTickets_getElem (raw : List JSObj) :
    ∀ (c : Int) (i : Nat),
      (mapTickets c raw)[i]? =
        (raw[i]?).map (fun d => mapRawTicket (c + i) d) := by
  induction raw with
  | nil => intro c i; simp [mapTickets]
  | cons d rest ih =>
    intro c i
    cases i with
    | zero => simp [mapTickets]
    | succ j =>
      have hc : c + 1 + (j : Int) = c + ((j + 1 : Nat) : Int) := by
        push_cast
        ring
      simp only [mapTickets, List.getElem?_cons_succ, ih (c + 1) j, hc]

/-- Every string contains the (lowercased) empty pattern, as JS
`includes` does. -/
theorem jsIncludes_empty_pattern (s : String) :
    jsIncludes s (jsToLowerCase "") = true :=
  occursIn_nil s.data

/-- C1: for every list of rows in which each row has string `subject`
and `description` fields and every query `q`, `filterData(rows, q)`
retains exactly those rows whose lowercased subject or lowercased
description contains the lowercased `q` as a substring; a row matching
in neither field is excluded. -/
theorem filterData_retains_matching_rows (rows : List JSObj) (q : String)
    (h : ∀ r ∈ rows, rowWellFormed r = true) :
    filterData rows q =
      some (rows.filter (fun r => rowMatches r (jsToLowerCase q))) :=
  filterLoop_wellFormed_eq (jsToLowerCase q) rows h

/-- Witness for C1, also exercising case-insensitivity: the query `FOO`
retains the row with subject `Foo` and drops the row matching in
neither field. -/
theorem filterData_retains_matching_rows_witness :
    filterData [exRow1, exRow2] "FOO" = some [exRow1] := by
  rw [filterData_retains_matching_rows [exRow1, exRow2] "FOO" (by decide)]
  rfl

/-- C2: any successful `filterData(rows, q)` result is a subsequence of
`rows` in the original relative order (the embedding is a pure function,
so the input list and its rows are untouched). -/
theorem filterData_result_is_sublist (rows out : List JSObj) (q : String)
    (h : filterData rows q = some out) : List.Sublist out rows :=
  filterLoop_sublist (jsToLowerCase q) rows out h

/-- Witness for C2 at a concrete filter call. -/
theorem filterData_result_is_sublist_witness :
    List.Sublist [exRow1] [exRow1, exRow2] :=
  filterData_result_is_sublist [exRow1, exRow2] [exRow1] "foo" rfl

/-- C3: on rows carrying string `subject` and `description`, the empty
query returns the whole list unchanged: same elements, same order. -/
theorem filterData_empty_query_returns_all (rows : List JSObj)
    (h : ∀ r ∈ rows, rowWellFormed r = true) :
    filterData rows "" = some rows := by
  rw [show filterData rows "" = filterLoop (jsToLowerCase "") rows from rfl,
    filterLoop_wellFormed_eq (jsToLowerCase "") rows h]
  congr 1
  apply List.filter_eq_self.mpr
  intro r hr
  have hwf := h r hr
  unfold rowWellFormed at hwf
  cases hs : getField r "subject" with
  | str s => simp [rowMatches, hs, jsIncludes_empty_pattern]
  | undef => rw [hs] at hwf; simp [isStr] at hwf
  | jsNull => rw [hs] at hwf; simp [isStr] at hwf
  | num n => rw [hs] at hwf; simp [isStr] at hwf
  | arr l => rw [hs] at hwf; simp [isStr] at hwf

/-- Witness for C3 at a concrete two-row list. -/
theorem filterData_empty_query_returns_all_witness :
    filterData [exRow1, exRow2] "" = some [exRow1, exRow2] :=
  filterData_empty_query_returns_all [exRow1, exRow2] (by decide)

/-- A row with a string `subject` but no `description` at all. -/
def malformedRow : JSObj := [("subject", JSValue.str "a")]

/-- C10 counterexample: a row lacking `description` (with a string
subject) does not make `filterData` throw on the empty query — the `||`
short-circuits after the subject matches, so the claim that any row
missing either field throws (for every query, including the empty one)
is false. -/
theorem filterData_short_circuit_counterexample :
    filterData [malformedRow] "" = some [malformedRow] := rfl

/-- C10 (amended): `filterData(rows, q)` returns rather than throws
exactly when every row has a string `subject` and, whenever that
lowercased subject does not contain the lowercased query (forcing the
`||` to read the second field), a string `description` as well; a row
with a non-string subject always throws, and a row whose subject
matches never reads its description. -/
theorem filterData_totality_characterization (rows : List JSObj)
    (q : String) :
    (filterData rows q).isSome =
      rows.all (fun r => rowFilterSafe r (jsToLowerCase q)) :=
  filterLoop_isSome_iff_all_safe (jsToLowerCase q) rows

/-- C4: after `getTickets` completes with `N` backend records returned
in order, the row list has exactly `N` rows; the row at index `i`
(0-based) is the `i`-th record mapped field-by-field with sequence
number `#` equal to `i + 1`, regardless of `id` values; and the spec's
worked-example record maps to the spec's worked-example row. -/
theorem getTickets_rows_numbered_and_mapped :
    (∀ raw : List JSObj,
       (getTicketsRows raw).length = raw.length ∧
       ∀ i : Nat,
         (getTicketsRows raw)[i]? =
           (raw[i]?).map (fun d => mapRawTicket ((i : Int) + 1) d)) ∧
    getTicketsRows [exRawTicket] = [exMappedRow] := by
  constructor
  · intro raw
    refine ⟨mapTickets_length raw 1, fun i => ?_⟩
    have hc : (1 : Int) + (i : Int) = (i : Int) + 1 := by ring
    rw [getTicketsRows, mapTickets_getElem raw 1 i]
    simp only [hc]
  · rfl

/-- C5: handling a create-panel "updated" event appends exactly one row
mapped from the returned record with sequence number `K + 1` (where `K`
is the current list length), leaves the `K` existing rows unchanged,
makes the list length `K + 1`, closes the add dialog, and emits exactly
the success notification. -/
theorem updateTicketList_appends_one_row (st : TicketsState) (rec : JSObj) :
    ((updateTicketList st rec).1.tickets.length = st.tickets.length + 1) ∧
    ((updateTicketList st rec).1.tickets.take st.tickets.length =
       st.tickets) ∧
    ((updateTicketList st rec).1.tickets[st.tickets.length]? =
       some (mapRawTicket ((st.tickets.length : Int) + 1) rec)) ∧
    (getField (mapRawTicket ((st.tickets.length : Int) + 1) rec) "#" =
       JSValue.num ((st.tickets.length : Int) + 1)) ∧
    ((updateTicketList st rec).1.showaddTicketDialog = false) ∧
    ((updateTicketList st rec).1.showUpdateTicketDialog =
       st.showUpdateTicketDialog) ∧
    ((updateTicketList st rec).2 =
       [Effect.notifySuccess "Ticket added successfully."]) := by
  refine ⟨?_, ?_, ?_, rfl, rfl, rfl, rfl⟩
  · simp [updateTicketList]
  · simp [updateTicketList, List.take_left]
  · simp [updateTicketList]

/-- C6 counterexample: closing the edit dialog through `ticketUpdated`
does trigger a full Loader reload — the handler's trace contains the
`getTickets()` invocation — refuting the claim that the row list is not
refetched on edit-close. -/
theorem ticketUpdated_triggers_reload_counterexample :
    (ticketUpdated
        { initialState with showUpdateTicketDialog := true }).2.countP
      isLoadTickets = 1 := rfl

/-- C6 (amended): when the edit dialog closes after an edit-panel
"updated" event, the handler resets the dialog-visibility flag and
leaves the rest of the state untouched, but it also triggers exactly
one full Loader reload, whose completion replaces the row list with the
freshly mapped response. -/
theorem ticketUpdated_closes_dialog_and_reloads (st : TicketsState)
    (raw : List JSObj) :
    ((ticketUpdated st).1.showUpdateTicketDialog = false) ∧
    ((ticketUpdated st).1.tickets = st.tickets) ∧
    ((ticketUpdated st).1.ticket = st.ticket) ∧
    ((ticketUpdated st).1.showaddTicketDialog = st.showaddTicketDialog) ∧
    ((ticketUpdated st).2.countP isLoadTickets = 1) ∧
    ((getTickets (ticketUpdated st).1 (some raw)).1.tickets =
       getTicketsRows raw) :=
  ⟨rfl, rfl, rfl, rfl, rfl, rfl⟩

/-- C7: the claim (and the spec) say `editTicket(row)` fills the edit
form's date fields from the clicked row; the source instead reads
`props.createdAt` / `props.updatedAt`, keys no mapped row carries (rows
carry `created` / `updated`), so on the worked-example row — whose
`created` is the normalized timestamp — the populated form's `created`
and `updated` are `undefined` while the non-date fields and the dialog
flag behave as claimed. -/
theorem editTicket_reads_absent_date_fields :
    (getField (mapRawTicket 1 exRawTicket) "created" =
       JSValue.str "2023-01-01T00:00:00Z") ∧
    (getField (mapRawTicket 1 exRawTicket) "createdAt" = JSValue.undef) ∧
    (getField
       ((editTicket initialState (mapRawTicket 1 exRawTicket)).ticket)
       "created" = JSValue.undef) ∧
    (getField
       ((editTicket initialState (mapRawTicket 1 exRawTicket)).ticket)
       "updated" = JSValue.undef) ∧
    (getField
       ((editTicket initialState (mapRawTicket 1 exRawTicket)).ticket)
       "subject" = JSValue.str "Login issue") ∧
    (getField
       ((editTicket initialState (mapRawTicket 1 exRawTicket)).ticket)
       "id" = JSValue.str "t1") ∧
    ((editTicket initialState
        (mapRawTicket 1 exRawTicket)).showUpdateTicketDialog = true) :=
  ⟨rfl, rfl, rfl, rfl, rfl, rfl, rfl⟩

/-- C8: `deleteTicket` never emits the remote delete (nor a reload)
unless the confirmation is accepted; the handler itself leaves the
state untouched; on confirmation the remote delete is invoked with
exactly the target row's `id`, and the full reload appears in the trace
only after the delete resolves. -/
theorem deleteTicket_gated_by_confirmation (st : TicketsState)
    (row : JSObj) (confirmed deleteResolves : Bool) :
    ((deleteTicket st row confirmed deleteResolves).1 = st) ∧
    (confirmed = false →
       (deleteTicket st row confirmed deleteResolves).2.countP
           isRemoteDelete = 0 ∧
       (deleteTicket st row confirmed deleteResolves).2.countP
           isLoadTickets = 0) ∧
    (confirmed = true → deleteResolves = true →
       (deleteTicket st row confirmed deleteResolves).2 =
         [Effect.confirmPrompt (getField row "id"),
          Effect.remoteDelete (getField row "id"),
          Effect.loadTickets]) ∧
    (confirmed = true → deleteResolves = false →
       (deleteTicket st row confirmed deleteResolves).2 =
         [Effect.confirmPrompt (getField row "id"),
          Effect.remoteDelete (getField row "id")]) := by
  cases confirmed <;> cases deleteResolves
  · exact ⟨rfl, fun _ => ⟨rfl, rfl⟩, fun h _ => Bool.noConfusion h,
      fun h _ => Bool.noConfusion h⟩
  · exact ⟨rfl, fun _ => ⟨rfl, rfl⟩, fun h _ => Bool.noConfusion h,
      fun h _ => Bool.noConfusion h⟩
  · exact ⟨rfl, fun h => Bool.noConfusion h, fun _ h => Bool.noConfusion h,
      fun _ _ => rfl⟩
  · exact ⟨rfl, fun h => Bool.noConfusion h, fun _ _ => rfl,
      fun _ h => Bool.noConfusion h⟩

/-- Witness for C8: on the worked-example row, acceptance yields the
delete-then-reload trace with the row's `id`, and refusal emits no
remote delete. -/
theorem deleteTicket_gated_by_confirmation_witness :
    ((deleteTicket initialState exMappedRow true true).2 =
       [Effect.confirmPrompt (JSValue.str "t1"),
        Effect.remoteDelete (JSValue.str "t1"),
        Effect.loadTickets]) ∧
    ((deleteTicket initialState exMappedRow false false).2.countP
        isRemoteDelete = 0) := by
  constructor
  · have h :=
      (deleteTicket_gated_by_confirmation initialState exMappedRow
          true true).2.2.1 rfl rfl
    rw [h]
    rfl
  · exact ((deleteTicket_gated_by_confirmation initialState exMappedRow
      false false).2.1 rfl).1

/-- C9: when the remote `list` call rejects, nothing after the `.then`
runs: the whole component state (in particular the row list) is
preserved, the loading notification is never dismissed, and exactly one
`list` call (no retry) was issued. -/
theorem getTickets_failure_preserves_state (st : TicketsState) :
    ((getTickets st none).1 = st) ∧
    ((getTickets st none).2.countP isDismissLoading = 0) ∧
    ((getTickets st none).2.countP isRemoteListCall = 1) ∧
    ((getTickets st none).2.countP isLoadTickets = 0) :=
  ⟨rfl, rfl, rfl, rfl⟩
